import Mathlib

/-
Shallow embedding of src/drivers/pwm/pwm-bcm2835.c (a BCM2835 PWM driver).

The driver accesses six memory-mapped 32-bit registers through global
pointers set up in probe: the PWM control register (ptrPWM), the duty and
period registers (ptrDUTY, ptrPERIOD), the clock control and divider
registers (ptrCLK, ptrDIV) and the pin alternate-function register
(ptrALT).  We model the register file as a function from register names to
natural numbers; iowrite32 stores its value reduced mod 2^32 (the hardware
registers are 32 bits wide), and every operation additionally records the
sequence of register reads and writes it performs, so that "performs no
register writes" style properties are expressible.
-/

/-- The six mapped registers of the driver: ctl is the PWM control register
(ptrPWM), duty and period the per-chip duty/period registers, clk, div and
alt the clock-control, clock-divider and pin-function registers. -/
inductive Reg where
  | ctl
  | duty
  | period
  | clk
  | div
  | alt
deriving DecidableEq

/-- The register file: current 32-bit value of each mapped register. -/
abbrev RegState := Reg → Nat

/-- iowrite32: store a 32-bit value into a register (values reduced mod 2^32,
as the hardware register is 32 bits wide). -/
def iowrite32 (v : Nat) (r : Reg) (s : RegState) : RegState :=
  fun q => if q = r then v % 2 ^ 32 else s q

/-- ioread32: read the current value of a register. -/
def ioread32 (r : Reg) (s : RegState) : Nat := s r

/-- Source constant PWM_ENABLE (0x00000001): the output-enable bit. -/
def PWM_ENABLE : Nat := 0x00000001

/-- Source constant PWM_POLARITY (0x00000010): the polarity bit. -/
def PWM_POLARITY : Nat := 0x00000010

/-- Minimum supported period constant from the specification (108, in the
nanosecond units the driver divides by 1000). -/
def MIN_PERIOD : Nat := 108

/-- The 32-bit bitwise complement, as computed by the C operator ~ on a u32. -/
def u32not (x : Nat) : Nat := (2 ^ 32 - 1) ^^^ x

/-- Conversion of a C int to a u32 (two-complement wraparound), applied when
an int expression is passed to iowrite32. -/
def i2u32 (x : Int) : Nat := (x % (2 ^ 32 : Int)).toNat

/-- One memory-mapped register access: a read returning v, or a write of v. -/
inductive RegEvent where
  | rd (r : Reg) (v : Nat)
  | wr (r : Reg) (v : Nat)
deriving DecidableEq

/-- The register an access event touches. -/
def RegEvent.target : RegEvent → Reg
  | .rd r _ => r
  | .wr r _ => r

/-- Result of one driver operation: the register file afterwards, the ordered
trace of register accesses performed, and the C return value. -/
structure OpResult where
  s : RegState
  trace : List RegEvent
  ret : Int

/-- bcm2835_pwm_config (source lines 80-95): writes duty_ns/1000 to the duty
register and period_ns/1000 to the period register (C truncating int
division, then int-to-u32 conversion by iowrite32) and returns 0.  The
channel argument (pwm device) is never used; DEBUG is compiled out. -/
def bcm2835_pwm_config (channel : Nat) (duty_ns period_ns : Int)
    (s : RegState) : OpResult :=
  { s := iowrite32 (i2u32 (Int.tdiv period_ns 1000)) .period
           (iowrite32 (i2u32 (Int.tdiv duty_ns 1000)) .duty s)
    trace := [.wr .duty (i2u32 (Int.tdiv duty_ns 1000)),
              .wr .period (i2u32 (Int.tdiv period_ns 1000))]
    ret := 0 }

/-- bcm2835_pwm_enable (source lines 97-112): ORs PWM_ENABLE into the control
register via read-modify-write, then the printk re-reads the register; the
channel argument is never used (the source carries a TODO for channel 1). -/
def bcm2835_pwm_enable (channel : Nat) (s : RegState) : OpResult :=
  { s := iowrite32 (ioread32 .ctl s ||| PWM_ENABLE) .ctl s
    trace := [.rd .ctl (ioread32 .ctl s),
              .wr .ctl (ioread32 .ctl s ||| PWM_ENABLE),
              .rd .ctl (ioread32 .ctl
                (iowrite32 (ioread32 .ctl s ||| PWM_ENABLE) .ctl s))]
    ret := 0 }

/-- bcm2835_pwm_disable (source lines 114-126): ANDs out PWM_ENABLE from the
control register via read-modify-write; returns void, channel unused. -/
def bcm2835_pwm_disable (channel : Nat) (s : RegState) :
    RegState × List RegEvent :=
  (iowrite32 (ioread32 .ctl s &&& u32not PWM_ENABLE) .ctl s,
   [.rd .ctl (ioread32 .ctl s),
    .wr .ctl (ioread32 .ctl s &&& u32not PWM_ENABLE)])

/-- Polarity encoding: the pwm_polarity enum of the kernel header declares
PWM_POLARITY_NORMAL first, so it is 0. -/
def PWM_POLARITY_NORMAL : Nat := 0

/-- Polarity encoding: PWM_POLARITY_INVERSED is declared second, so it is 1.
The C enum variable itself can carry any other integer value as well. -/
def PWM_POLARITY_INVERSED : Nat := 1

/-- bcm2835_set_polarity (source lines 128-140): for NORMAL clears
PWM_POLARITY in the control register, for INVERSED sets it, each via
read-modify-write; any other polarity value falls through both branches and
performs no register access.  Always returns 0; channel unused. -/
def bcm2835_set_polarity (channel : Nat) (polarity : Nat)
    (s : RegState) : OpResult :=
  if polarity = PWM_POLARITY_NORMAL then
    { s := iowrite32 (ioread32 .ctl s &&& u32not PWM_POLARITY) .ctl s
      trace := [.rd .ctl (ioread32 .ctl s),
                .wr .ctl (ioread32 .ctl s &&& u32not PWM_POLARITY)]
      ret := 0 }
  else if polarity = PWM_POLARITY_INVERSED then
    { s := iowrite32 (ioread32 .ctl s ||| PWM_POLARITY) .ctl s
      trace := [.rd .ctl (ioread32 .ctl s),
                .wr .ctl (ioread32 .ctl s ||| PWM_POLARITY)]
      ret := 0 }
  else
    { s := s, trace := [], ret := 0 }

/-- A controller instance: the register file plus whether the register window
is still mapped (probe maps it, remove unmaps it). -/
structure Controller where
  regs : RegState
  mapped : Bool

/-- bcm2835_pwm_remove (source lines 263-278): iounmaps all six register
mappings and then calls pwmchip_remove.  No register is read or written: the
event trace is empty and every register keeps its value; the window is
released (mapped becomes false).  The framework call pwmchip_remove happens
only after the unmapping, so it cannot touch the window either. -/
def bcm2835_pwm_remove (m : Controller) : Controller × List RegEvent :=
  ({ regs := m.regs, mapped := false }, [])

/-- Nominal PWM clock rate configured by probe: the divider write is commented
"pwm clock set to 1Mhz" and the PWMCLK_DIV constant "+-1MHz pwm clock". -/
def clockFreqHz : Nat := 1000000

/-- Nanoseconds per counter tick for the configured clock: 1e9 / frequency. -/
def scaler : Nat := 10 ^ 9 / clockFreqHz

/-- A register file with every register holding v, for concrete test states. -/
def regsAll (v : Nat) : RegState := fun _ => v

/-
Helper lemmas about the embedding.
-/

/-- i2u32 is the identity on naturals below 2^32. -/
theorem i2u32_ofNat (n : Nat) (h : n < 2 ^ 32) : i2u32 (n : Int) = n := by
  unfold i2u32
  rw [Int.emod_eq_of_lt (by positivity) (by exact_mod_cast h)]
  exact Int.toNat_ofNat n

/-- C truncating division agrees with Nat division on cast naturals. -/
theorem tdiv_ofNat (m n : Nat) :
    Int.tdiv (m : Int) (n : Int) = ((m / n : Nat) : Int) := rfl

/-- Writing the same value twice is the same as writing it once. -/
theorem iowrite32_idem (v : Nat) (r : Reg) (s : RegState) :
    iowrite32 v r (iowrite32 v r s) = iowrite32 v r s := by
  funext q
  by_cases hq : q = r <;> simp [iowrite32, hq]

/-- A write leaves every other register unchanged. -/
theorem iowrite32_other (v : Nat) (r q : Reg) (s : RegState) (h : q ≠ r) :
    iowrite32 v r s q = s q := by
  simp [iowrite32, h]

/-- Bit k of the 32-bit complement of x. -/
theorem testBit_u32not (x k : Nat) :
    Nat.testBit (u32not x) k = ((decide (k < 32)).xor (Nat.testBit x k)) := by
  unfold u32not
  rw [Nat.testBit_xor, Nat.testBit_two_pow_sub_one]

/-- ANDing with the complement of a single bit clears that bit. -/
theorem testBit_land_u32not_self (c b : Nat) (hb : b < 32) :
    Nat.testBit (c &&& u32not (2 ^ b)) b = false := by
  simp [Nat.testBit_land, testBit_u32not, hb, Nat.testBit_two_pow_self]

/-- ANDing a 32-bit value with the complement of one bit leaves every other
bit unchanged. -/
theorem testBit_land_u32not_other (c k b : Nat) (hc : c < 2 ^ 32)
    (hk : k ≠ b) :
    Nat.testBit (c &&& u32not (2 ^ b)) k = Nat.testBit c k := by
  by_cases h : k < 32
  · simp [Nat.testBit_land, testBit_u32not, h,
      Nat.testBit_two_pow_of_ne (fun e => hk e.symm)]
  · have hck : Nat.testBit c k = false :=
      Nat.testBit_lt_two_pow
        (lt_of_lt_of_le hc (Nat.pow_le_pow_right (by norm_num)
          (le_of_not_lt h)))
    simp [Nat.testBit_land, hck]

/-- ORing in a single bit sets that bit. -/
theorem testBit_lor_two_pow_self (c b : Nat) :
    Nat.testBit (c ||| 2 ^ b) b = true := by
  simp [Nat.testBit_or, Nat.testBit_two_pow_self]

/-- ORing in a single bit leaves every other bit unchanged. -/
theorem testBit_lor_two_pow_other (c k b : Nat) (hk : k ≠ b) :
    Nat.testBit (c ||| 2 ^ b) k = Nat.testBit c k := by
  simp [Nat.testBit_or, Nat.testBit_two_pow_of_ne (fun e => hk e.symm)]

/-- Value of the control register after bcm2835_pwm_enable. -/
theorem enable_ctl_val (i : Nat) (s : RegState) (h : s Reg.ctl < 2 ^ 32) :
    (bcm2835_pwm_enable i s).s Reg.ctl = s Reg.ctl ||| PWM_ENABLE := by
  have hlt0 : s Reg.ctl ||| PWM_ENABLE < 2 ^ 32 :=
    Nat.or_lt_two_pow h (by decide)
  have hlt : s Reg.ctl ||| PWM_ENABLE < 4294967296 := hlt0
  simp [bcm2835_pwm_enable, iowrite32, ioread32, Nat.mod_eq_of_lt hlt]

/-- Value of the control register after bcm2835_pwm_disable. -/
theorem disable_ctl_val (i : Nat) (s : RegState) :
    (bcm2835_pwm_disable i s).1 Reg.ctl = s Reg.ctl &&& u32not PWM_ENABLE := by
  have hlt0 : s Reg.ctl &&& u32not PWM_ENABLE < 2 ^ 32 :=
    Nat.and_lt_two_pow _ (by decide)
  have hlt : s Reg.ctl &&& u32not PWM_ENABLE < 4294967296 := hlt0
  simp [bcm2835_pwm_disable, iowrite32, ioread32, Nat.mod_eq_of_lt hlt]

/-- Value of the control register after bcm2835_set_polarity with NORMAL. -/
theorem set_polarity_normal_val (i : Nat) (s : RegState) :
    (bcm2835_set_polarity i PWM_POLARITY_NORMAL s).s Reg.ctl =
      s Reg.ctl &&& u32not PWM_POLARITY := by
  have hlt0 : s Reg.ctl &&& u32not PWM_POLARITY < 2 ^ 32 :=
    Nat.and_lt_two_pow _ (by decide)
  have hlt : s Reg.ctl &&& u32not PWM_POLARITY < 4294967296 := hlt0
  simp [bcm2835_set_polarity, iowrite32, ioread32, Nat.mod_eq_of_lt hlt]

/-- Value of the control register after bcm2835_set_polarity with INVERSED. -/
theorem set_polarity_inversed_val (i : Nat) (s : RegState)
    (h : s Reg.ctl < 2 ^ 32) :
    (bcm2835_set_polarity i PWM_POLARITY_INVERSED s).s Reg.ctl =
      s Reg.ctl ||| PWM_POLARITY := by
  have hlt0 : s Reg.ctl ||| PWM_POLARITY < 2 ^ 32 :=
    Nat.or_lt_two_pow h (by decide)
  have hlt : s Reg.ctl ||| PWM_POLARITY < 4294967296 := hlt0
  simp [bcm2835_set_polarity, PWM_POLARITY_NORMAL, PWM_POLARITY_INVERSED,
    iowrite32, ioread32, Nat.mod_eq_of_lt hlt]

/-- PWM_ENABLE is bit 0. -/
theorem PWM_ENABLE_eq : PWM_ENABLE = 2 ^ 0 := rfl

/-- PWM_POLARITY is bit 4. -/
theorem PWM_POLARITY_eq : PWM_POLARITY = 2 ^ 4 := rfl

/-
Theorems.
-/

/-- Claim C1, as stated, is false: configure(1, 50000, 108) with
period_ns = 108 ≤ MIN_PERIOD does not fail, it returns 0 (success), and it
writes both registers: starting from a file holding 7 everywhere, the duty
register becomes 50 and the period register becomes 0, both changed. -/
theorem C1_counterexample :
    (108 : Int) ≤ (MIN_PERIOD : Int) ∧
    (bcm2835_pwm_config 1 50000 108 (regsAll 7)).ret = 0 ∧
    (bcm2835_pwm_config 1 50000 108 (regsAll 7)).trace.length = 2 ∧
    (bcm2835_pwm_config 1 50000 108 (regsAll 7)).s .duty = 50 ∧
    (bcm2835_pwm_config 1 50000 108 (regsAll 7)).s .period = 0 ∧
    regsAll 7 .duty = 7 ∧ regsAll 7 .period = 7 := by
  refine ⟨by decide, rfl, rfl, by decide, by decide, rfl, rfl⟩

/-- Claim C1 amended: bcm2835_pwm_config performs no period validation at
all.  For every channel and inputs, even with period_ns ≤ MIN_PERIOD, it
returns 0 (success) and performs exactly the two writes, duty_ns/1000 to the
duty register and period_ns/1000 to the period register. -/
theorem C1_amended (i : Nat) (d p : Int) (s : RegState)
    (hp : p ≤ (MIN_PERIOD : Int)) :
    (bcm2835_pwm_config i d p s).ret = 0 ∧
    (bcm2835_pwm_config i d p s).trace =
      [.wr .duty (i2u32 (Int.tdiv d 1000)),
       .wr .period (i2u32 (Int.tdiv p 1000))] ∧
    (bcm2835_pwm_config i d p s).s .duty = i2u32 (Int.tdiv d 1000) % 2 ^ 32 ∧
    (bcm2835_pwm_config i d p s).s .period =
      i2u32 (Int.tdiv p 1000) % 2 ^ 32 := by
  refine ⟨rfl, rfl, ?_, ?_⟩ <;>
    simp [bcm2835_pwm_config, iowrite32]

/-- Witness for C1_amended at the concrete spec scenario
configure(1, 50000, 108). -/
theorem C1_witness :
    ((108 : Int) ≤ (MIN_PERIOD : Int)) ∧
    ((bcm2835_pwm_config 1 50000 108 (regsAll 7)).ret = 0 ∧
     (bcm2835_pwm_config 1 50000 108 (regsAll 7)).trace =
       [.wr .duty (i2u32 (Int.tdiv 50000 1000)),
        .wr .period (i2u32 (Int.tdiv 108 1000))] ∧
     (bcm2835_pwm_config 1 50000 108 (regsAll 7)).s .duty =
       i2u32 (Int.tdiv 50000 1000) % 2 ^ 32 ∧
     (bcm2835_pwm_config 1 50000 108 (regsAll 7)).s .period =
       i2u32 (Int.tdiv 108 1000) % 2 ^ 32) :=
  ⟨by decide, C1_amended 1 50000 108 (regsAll 7) (by decide)⟩

/-- Claim C2: for every channel and non-negative in-range inputs,
bcm2835_pwm_config writes duty_ns / scaler to the duty register and
period_ns / scaler to the period register, truncating integer division,
where scaler = 1000 is the nanoseconds-per-tick value 1e9 / clockFreqHz of
the 1 MHz PWM clock the probe configures. -/
theorem C2_config_ticks (i : Nat) (d p : Int) (s : RegState)
    (hd0 : 0 ≤ d) (hd1 : d < 2 ^ 31) (hp0 : 0 ≤ p) (hp1 : p < 2 ^ 31) :
    scaler = 1000 ∧
    (bcm2835_pwm_config i d p s).s .duty = d.toNat / scaler ∧
    (bcm2835_pwm_config i d p s).s .period = p.toNat / scaler := by
  obtain ⟨a, rfl⟩ := Int.eq_ofNat_of_zero_le hd0
  obtain ⟨b, rfl⟩ := Int.eq_ofNat_of_zero_le hp0
  have ha : a < 2 ^ 31 := by exact_mod_cast hd1
  have hb : b < 2 ^ 31 := by exact_mod_cast hp1
  have ha32 : a / 1000 < 2 ^ 32 :=
    lt_of_le_of_lt (Nat.div_le_self _ _) (lt_trans ha (by norm_num))
  have hb32 : b / 1000 < 2 ^ 32 :=
    lt_of_le_of_lt (Nat.div_le_self _ _) (lt_trans hb (by norm_num))
  refine ⟨rfl, ?_, ?_⟩
  · have h1 : Int.tdiv ((a : Nat) : Int) 1000 = ((a / 1000 : Nat) : Int) := rfl
    have h2 : (bcm2835_pwm_config i (a : Int) (b : Int) s).s .duty
        = i2u32 (Int.tdiv (a : Int) 1000) % 2 ^ 32 := by
      simp [bcm2835_pwm_config, iowrite32]
    rw [h2, h1, i2u32_ofNat _ ha32, Nat.mod_eq_of_lt ha32]
    simp [scaler, clockFreqHz]
  · have h1 : Int.tdiv ((b : Nat) : Int) 1000 = ((b / 1000 : Nat) : Int) := rfl
    have h2 : (bcm2835_pwm_config i (a : Int) (b : Int) s).s .period
        = i2u32 (Int.tdiv (b : Int) 1000) % 2 ^ 32 := by
      simp [bcm2835_pwm_config, iowrite32]
    rw [h2, h1, i2u32_ofNat _ hb32, Nat.mod_eq_of_lt hb32]
    simp [scaler, clockFreqHz]

/-- Witness for C2_config_ticks at the concrete spec scenario
configure(0, 100000, 300000): the written duty value is 100 and the written
period value is 300. -/
theorem C2_witness :
    ((0 : Int) ≤ 100000 ∧ (100000 : Int) < 2 ^ 31 ∧
     (0 : Int) ≤ 300000 ∧ (300000 : Int) < 2 ^ 31) ∧
    (scaler = 1000 ∧
     (bcm2835_pwm_config 0 100000 300000 (regsAll 7)).s .duty =
       (100000 : Int).toNat / scaler ∧
     (bcm2835_pwm_config 0 100000 300000 (regsAll 7)).s .period =
       (300000 : Int).toNat / scaler) ∧
    (100000 : Int).toNat / scaler = 100 ∧
    (300000 : Int).toNat / scaler = 300 :=
  ⟨⟨by decide, by decide, by decide, by decide⟩,
   C2_config_ticks 0 100000 300000 (regsAll 7)
     (by decide) (by decide) (by decide) (by decide),
   by decide, by decide⟩

/-- Claim C3, as stated, is false: enabling channel 1 from an all-zero
control register produces 1, i.e. the enable bit at the channel-1 offset
(bit 8) is not set, while bit 0 — inside the channel-0 8-bit field — changes
from 0 to 1, so the field of another channel is altered. -/
theorem C3_counterexample :
    (bcm2835_pwm_enable 1 (regsAll 0)).s .ctl = 1 ∧
    Nat.testBit ((bcm2835_pwm_enable 1 (regsAll 0)).s .ctl) 8 = false ∧
    Nat.testBit ((bcm2835_pwm_enable 1 (regsAll 0)).s .ctl) 0 = true ∧
    Nat.testBit (regsAll 0 .ctl) 0 = false :=
  ⟨by decide, by decide, by decide, by decide⟩

/-- Claim C3 amended: bcm2835_pwm_enable ignores the channel index and ORs
in PWM_ENABLE (bit 0, the channel-0 enable bit) for every channel argument;
every bit other than bit 0, in particular all of the channel-1 field
(bits 8-15), is left unchanged. -/
theorem C3_amended (i : Nat) (s : RegState) (h : s Reg.ctl < 2 ^ 32) :
    (bcm2835_pwm_enable i s).s Reg.ctl = s Reg.ctl ||| PWM_ENABLE ∧
    ∀ k, k ≠ 0 →
      Nat.testBit ((bcm2835_pwm_enable i s).s Reg.ctl) k =
        Nat.testBit (s Reg.ctl) k := by
  refine ⟨enable_ctl_val i s h, ?_⟩
  intro k hk
  rw [enable_ctl_val i s h, PWM_ENABLE_eq]
  exact testBit_lor_two_pow_other _ k 0 hk

/-- Witness for C3_amended at channel 0 on the all-sevens register file:
bit 9 of the control register is unchanged by enable. -/
theorem C3_witness :
    regsAll 7 Reg.ctl < 2 ^ 32 ∧
    Nat.testBit ((bcm2835_pwm_enable 0 (regsAll 7)).s Reg.ctl) 9 =
      Nat.testBit (regsAll 7 Reg.ctl) 9 :=
  ⟨by decide, (C3_amended 0 (regsAll 7) (by decide)).2 9 (by decide)⟩

/-- Claim C4, as stated, is false: removing a controller whose control
register has the enable bit set performs no register write and releases the
window (mapped becomes false) with the enable bit still set. -/
theorem C4_counterexample :
    (bcm2835_pwm_remove ⟨regsAll 1, true⟩).1.mapped = false ∧
    (bcm2835_pwm_remove ⟨regsAll 1, true⟩).2 = [] ∧
    (bcm2835_pwm_remove ⟨regsAll 1, true⟩).1.regs Reg.ctl = 1 ∧
    Nat.testBit ((bcm2835_pwm_remove ⟨regsAll 1, true⟩).1.regs Reg.ctl) 0 =
      true :=
  ⟨rfl, rfl, rfl, by decide⟩

/-- Claim C4 amended: bcm2835_pwm_remove performs no register access at all
before (or after) releasing the register window: the access trace is empty
and every register, in particular every enable bit, keeps its prior value
while mapped becomes false. -/
theorem C4_amended (m : Controller) :
    (bcm2835_pwm_remove m).1.regs = m.regs ∧
    (bcm2835_pwm_remove m).2 = [] ∧
    (bcm2835_pwm_remove m).1.mapped = false :=
  ⟨rfl, rfl, rfl⟩

/-- Claim C5, as stated, is false: starting from a control register equal
to 1 (enable bit already set), enable(0) followed by disable(0) yields a
control register of 0 — the enable bit is not restored to its pre-enable
value 1. -/
theorem C5_counterexample :
    Nat.testBit (regsAll 1 Reg.ctl) 0 = true ∧
    (bcm2835_pwm_disable 0 (bcm2835_pwm_enable 0 (regsAll 1)).s).1 Reg.ctl
      = 0 ∧
    Nat.testBit
      ((bcm2835_pwm_disable 0 (bcm2835_pwm_enable 0 (regsAll 1)).s).1
        Reg.ctl) 0 = false :=
  ⟨by decide, by decide, by decide⟩

/-- Claim C5 amended: enable(i) then disable(i) always leaves the enable
bit (bit 0) cleared and every other bit of the control register unchanged;
the register is restored to its pre-enable value exactly when the enable
bit was clear to begin with. -/
theorem C5_amended (i : Nat) (s : RegState) (h : s Reg.ctl < 2 ^ 32) :
    Nat.testBit
      ((bcm2835_pwm_disable i (bcm2835_pwm_enable i s).s).1 Reg.ctl) 0 =
      false ∧
    (∀ k, k ≠ 0 →
      Nat.testBit
        ((bcm2835_pwm_disable i (bcm2835_pwm_enable i s).s).1 Reg.ctl) k =
        Nat.testBit (s Reg.ctl) k) ∧
    (Nat.testBit (s Reg.ctl) 0 = false →
      (bcm2835_pwm_disable i (bcm2835_pwm_enable i s).s).1 Reg.ctl =
        s Reg.ctl) := by
  have hor : (bcm2835_pwm_enable i s).s Reg.ctl < 2 ^ 32 := by
    rw [enable_ctl_val i s h]
    exact Nat.or_lt_two_pow h (by decide)
  have hval : (bcm2835_pwm_disable i (bcm2835_pwm_enable i s).s).1 Reg.ctl =
      ((s Reg.ctl ||| PWM_ENABLE) &&& u32not PWM_ENABLE) := by
    rw [disable_ctl_val, enable_ctl_val i s h]
  have hbit0 : Nat.testBit
      ((bcm2835_pwm_disable i (bcm2835_pwm_enable i s).s).1 Reg.ctl) 0 =
      false := by
    rw [hval, PWM_ENABLE_eq]
    exact testBit_land_u32not_self _ 0 (by norm_num)
  have hother : ∀ k, k ≠ 0 →
      Nat.testBit
        ((bcm2835_pwm_disable i (bcm2835_pwm_enable i s).s).1 Reg.ctl) k =
        Nat.testBit (s Reg.ctl) k := by
    intro k hk
    rw [hval, PWM_ENABLE_eq,
      testBit_land_u32not_other _ k 0
        (by rw [← PWM_ENABLE_eq]; rw [← enable_ctl_val i s h]; exact hor) hk]
    exact testBit_lor_two_pow_other _ k 0 hk
  refine ⟨hbit0, hother, ?_⟩
  intro h0
  apply Nat.eq_of_testBit_eq
  intro j
  by_cases hj : j = 0
  · rw [hj, hbit0, h0]
  · exact hother j hj

/-- Witness for C5_amended on a register file holding 6 (enable bit clear):
enable(0) then disable(0) restores the control register exactly. -/
theorem C5_witness :
    regsAll 6 Reg.ctl < 2 ^ 32 ∧
    Nat.testBit
      ((bcm2835_pwm_disable 0 (bcm2835_pwm_enable 0 (regsAll 6)).s).1
        Reg.ctl) 0 = false ∧
    (bcm2835_pwm_disable 0 (bcm2835_pwm_enable 0 (regsAll 6)).s).1 Reg.ctl =
      regsAll 6 Reg.ctl :=
  ⟨by decide, (C5_amended 0 (regsAll 6) (by decide)).1,
   (C5_amended 0 (regsAll 6) (by decide)).2.2 (by decide)⟩

/-- Claim C6, as stated, is false: starting from a control register equal
to 16 (polarity bit already set), set_polarity(1, Inverted) followed by
set_polarity(1, Normal) yields 0, not the original 16. -/
theorem C6_counterexample :
    regsAll 16 Reg.ctl = 16 ∧
    (bcm2835_set_polarity 1 PWM_POLARITY_NORMAL
      (bcm2835_set_polarity 1 PWM_POLARITY_INVERSED (regsAll 16)).s).s
      Reg.ctl = 0 ∧
    (0 : Nat) ≠ 16 :=
  ⟨rfl, by decide, by decide⟩

/-- Claim C6 amended: set_polarity(i, Inverted) then set_polarity(i, Normal)
always leaves the polarity bit (bit 4) cleared and every other bit of the
control register unchanged; the original value is restored bit-for-bit
exactly when bit 4 was clear to begin with. -/
theorem C6_amended (i : Nat) (s : RegState) (h : s Reg.ctl < 2 ^ 32) :
    Nat.testBit
      ((bcm2835_set_polarity i PWM_POLARITY_NORMAL
        (bcm2835_set_polarity i PWM_POLARITY_INVERSED s).s).s Reg.ctl) 4 =
      false ∧
    (∀ k, k ≠ 4 →
      Nat.testBit
        ((bcm2835_set_polarity i PWM_POLARITY_NORMAL
          (bcm2835_set_polarity i PWM_POLARITY_INVERSED s).s).s Reg.ctl) k =
        Nat.testBit (s Reg.ctl) k) ∧
    (Nat.testBit (s Reg.ctl) 4 = false →
      (bcm2835_set_polarity i PWM_POLARITY_NORMAL
        (bcm2835_set_polarity i PWM_POLARITY_INVERSED s).s).s Reg.ctl =
        s Reg.ctl) := by
  have hinv : (bcm2835_set_polarity i PWM_POLARITY_INVERSED s).s Reg.ctl =
      s Reg.ctl ||| PWM_POLARITY := set_polarity_inversed_val i s h
  have hor : s Reg.ctl ||| PWM_POLARITY < 2 ^ 32 :=
    Nat.or_lt_two_pow h (by decide)
  have hval : (bcm2835_set_polarity i PWM_POLARITY_NORMAL
      (bcm2835_set_polarity i PWM_POLARITY_INVERSED s).s).s Reg.ctl =
      ((s Reg.ctl ||| PWM_POLARITY) &&& u32not PWM_POLARITY) := by
    rw [set_polarity_normal_val, hinv]
  have hbit4 : Nat.testBit
      ((bcm2835_set_polarity i PWM_POLARITY_NORMAL
        (bcm2835_set_polarity i PWM_POLARITY_INVERSED s).s).s Reg.ctl) 4 =
      false := by
    rw [hval, PWM_POLARITY_eq]
    exact testBit_land_u32not_self _ 4 (by norm_num)
  have hother : ∀ k, k ≠ 4 →
      Nat.testBit
        ((bcm2835_set_polarity i PWM_POLARITY_NORMAL
          (bcm2835_set_polarity i PWM_POLARITY_INVERSED s).s).s Reg.ctl) k =
        Nat.testBit (s Reg.ctl) k := by
    intro k hk
    rw [hval, PWM_POLARITY_eq,
      testBit_land_u32not_other _ k 4 (by rw [← PWM_POLARITY_eq]; exact hor)
        hk]
    exact testBit_lor_two_pow_other _ k 4 hk
  refine ⟨hbit4, hother, ?_⟩
  intro h4
  apply Nat.eq_of_testBit_eq
  intro j
  by_cases hj : j = 4
  · rw [hj, hbit4, h4]
  · exact hother j hj

/-- Witness for C6_amended on a register file holding 7 (polarity bit
clear): Inverted then Normal restores the control register exactly. -/
theorem C6_witness :
    regsAll 7 Reg.ctl < 2 ^ 32 ∧
    Nat.testBit
      ((bcm2835_set_polarity 0 PWM_POLARITY_NORMAL
        (bcm2835_set_polarity 0 PWM_POLARITY_INVERSED (regsAll 7)).s).s
        Reg.ctl) 4 = false ∧
    (bcm2835_set_polarity 0 PWM_POLARITY_NORMAL
      (bcm2835_set_polarity 0 PWM_POLARITY_INVERSED (regsAll 7)).s).s
      Reg.ctl = regsAll 7 Reg.ctl :=
  ⟨by decide, (C6_amended 0 (regsAll 7) (by decide)).1,
   (C6_amended 0 (regsAll 7) (by decide)).2.2 (by decide)⟩

/-- Claim C7, as stated, is false for channel 1: with the control register
holding 4112 (bits 4 and 12 set), set_polarity(1, Normal) yields 4096 — the
bit at the claimed channel-1 offset (8 + 4 = 12) is still set, while bit 4,
inside the channel-0 field, was cleared. -/
theorem C7_counterexample :
    regsAll 4112 Reg.ctl = 4112 ∧
    (bcm2835_set_polarity 1 PWM_POLARITY_NORMAL (regsAll 4112)).s Reg.ctl =
      4096 ∧
    Nat.testBit 4112 12 = true ∧
    Nat.testBit 4096 12 = true ∧
    Nat.testBit 4112 4 = true ∧
    Nat.testBit 4096 4 = false :=
  ⟨rfl, by decide, by decide, by decide, by decide, by decide⟩

/-- Claim C7 amended: for every channel index, set_polarity(i, Normal)
clears exactly bit 4 (the channel-0 polarity bit) of the control register and
set_polarity(i, Inverted) sets exactly that bit; in both cases every other
bit is unchanged. -/
theorem C7_amended (i : Nat) (s : RegState) (h : s Reg.ctl < 2 ^ 32) :
    Nat.testBit
      ((bcm2835_set_polarity i PWM_POLARITY_NORMAL s).s Reg.ctl) 4 =
      false ∧
    (∀ k, k ≠ 4 →
      Nat.testBit
        ((bcm2835_set_polarity i PWM_POLARITY_NORMAL s).s Reg.ctl) k =
        Nat.testBit (s Reg.ctl) k) ∧
    Nat.testBit
      ((bcm2835_set_polarity i PWM_POLARITY_INVERSED s).s Reg.ctl) 4 =
      true ∧
    (∀ k, k ≠ 4 →
      Nat.testBit
        ((bcm2835_set_polarity i PWM_POLARITY_INVERSED s).s Reg.ctl) k =
        Nat.testBit (s Reg.ctl) k) := by
  have hn : (bcm2835_set_polarity i PWM_POLARITY_NORMAL s).s Reg.ctl =
      s Reg.ctl &&& u32not PWM_POLARITY := set_polarity_normal_val i s
  have hi : (bcm2835_set_polarity i PWM_POLARITY_INVERSED s).s Reg.ctl =
      s Reg.ctl ||| PWM_POLARITY := set_polarity_inversed_val i s h
  refine ⟨?_, ?_, ?_, ?_⟩
  · rw [hn, PWM_POLARITY_eq]
    exact testBit_land_u32not_self _ 4 (by norm_num)
  · intro k hk
    rw [hn, PWM_POLARITY_eq]
    exact testBit_land_u32not_other _ k 4 h hk
  · rw [hi, PWM_POLARITY_eq]
    exact testBit_lor_two_pow_self _ 4
  · intro k hk
    rw [hi, PWM_POLARITY_eq]
    exact testBit_lor_two_pow_other _ k 4 hk

/-- Witness for C7_amended on the all-sevens register file at channel 0:
Normal clears bit 4, Inverted sets bit 4, and bit 2 is untouched by both. -/
theorem C7_witness :
    regsAll 7 Reg.ctl < 2 ^ 32 ∧
    Nat.testBit
      ((bcm2835_set_polarity 0 PWM_POLARITY_NORMAL (regsAll 7)).s Reg.ctl) 4
      = false ∧
    Nat.testBit
      ((bcm2835_set_polarity 0 PWM_POLARITY_NORMAL (regsAll 7)).s Reg.ctl) 2
      = Nat.testBit (regsAll 7 Reg.ctl) 2 ∧
    Nat.testBit
      ((bcm2835_set_polarity 0 PWM_POLARITY_INVERSED (regsAll 7)).s Reg.ctl)
      4 = true ∧
    Nat.testBit
      ((bcm2835_set_polarity 0 PWM_POLARITY_INVERSED (regsAll 7)).s Reg.ctl)
      2 = Nat.testBit (regsAll 7 Reg.ctl) 2 :=
  ⟨by decide, (C7_amended 0 (regsAll 7) (by decide)).1,
   (C7_amended 0 (regsAll 7) (by decide)).2.1 2 (by decide),
   (C7_amended 0 (regsAll 7) (by decide)).2.2.1,
   (C7_amended 0 (regsAll 7) (by decide)).2.2.2 2 (by decide)⟩

/-- Claim C8: bcm2835_pwm_enable and bcm2835_pwm_disable are idempotent
for every channel index — applying either twice leaves the register file in
the same state as applying it once. -/
theorem C8_idempotent (i : Nat) (s : RegState) (h : s Reg.ctl < 2 ^ 32) :
    (bcm2835_pwm_enable i (bcm2835_pwm_enable i s).s).s =
      (bcm2835_pwm_enable i s).s ∧
    (bcm2835_pwm_disable i (bcm2835_pwm_disable i s).1).1 =
      (bcm2835_pwm_disable i s).1 := by
  constructor
  · have h1 : (bcm2835_pwm_enable i s).s Reg.ctl = s Reg.ctl ||| PWM_ENABLE :=
      enable_ctl_val i s h
    show iowrite32
        (ioread32 Reg.ctl (bcm2835_pwm_enable i s).s ||| PWM_ENABLE) Reg.ctl
        (bcm2835_pwm_enable i s).s = (bcm2835_pwm_enable i s).s
    rw [show ioread32 Reg.ctl (bcm2835_pwm_enable i s).s =
        (bcm2835_pwm_enable i s).s Reg.ctl from rfl, h1, Nat.or_assoc,
      Nat.or_self]
    show iowrite32 (ioread32 Reg.ctl s ||| PWM_ENABLE) Reg.ctl
        (iowrite32 (ioread32 Reg.ctl s ||| PWM_ENABLE) Reg.ctl s) = _
    exact iowrite32_idem _ _ _
  · have h1 : (bcm2835_pwm_disable i s).1 Reg.ctl =
        s Reg.ctl &&& u32not PWM_ENABLE := disable_ctl_val i s
    show iowrite32
        (ioread32 Reg.ctl (bcm2835_pwm_disable i s).1 &&& u32not PWM_ENABLE)
        Reg.ctl (bcm2835_pwm_disable i s).1 = (bcm2835_pwm_disable i s).1
    rw [show ioread32 Reg.ctl (bcm2835_pwm_disable i s).1 =
        (bcm2835_pwm_disable i s).1 Reg.ctl from rfl, h1, Nat.and_assoc,
      Nat.and_self]
    show iowrite32 (ioread32 Reg.ctl s &&& u32not PWM_ENABLE) Reg.ctl
        (iowrite32 (ioread32 Reg.ctl s &&& u32not PWM_ENABLE) Reg.ctl s) = _
    exact iowrite32_idem _ _ _

/-- Witness for C8_idempotent on the all-sevens register file. -/
theorem C8_witness :
    regsAll 7 Reg.ctl < 2 ^ 32 ∧
    ((bcm2835_pwm_enable 0 (bcm2835_pwm_enable 0 (regsAll 7)).s).s =
      (bcm2835_pwm_enable 0 (regsAll 7)).s ∧
     (bcm2835_pwm_disable 0 (bcm2835_pwm_disable 0 (regsAll 7)).1).1 =
      (bcm2835_pwm_disable 0 (regsAll 7)).1) :=
  ⟨by decide, C8_idempotent 0 (regsAll 7) (by decide)⟩

/-- Claim C9: every per-channel operation ignores its channel argument —
for any two indices i and j the four operations compute identical results —
and only the one fixed duty register, the one fixed period register and
control-register bits 0 and 4 are ever accessed: the traces touch only
those registers, bits of the control register other than 0 and 4 are never
changed, and no other register changes. -/
theorem C9_channel_ignored (i j : Nat) (d p : Int) (pol : Nat)
    (s : RegState) (h : s Reg.ctl < 2 ^ 32) :
    bcm2835_pwm_config i d p s = bcm2835_pwm_config j d p s ∧
    bcm2835_pwm_enable i s = bcm2835_pwm_enable j s ∧
    bcm2835_pwm_disable i s = bcm2835_pwm_disable j s ∧
    bcm2835_set_polarity i pol s = bcm2835_set_polarity j pol s ∧
    (∀ e ∈ (bcm2835_pwm_config i d p s).trace,
      e.target = Reg.duty ∨ e.target = Reg.period) ∧
    (∀ e ∈ (bcm2835_pwm_enable i s).trace, e.target = Reg.ctl) ∧
    (∀ e ∈ (bcm2835_pwm_disable i s).2, e.target = Reg.ctl) ∧
    (∀ e ∈ (bcm2835_set_polarity i pol s).trace, e.target = Reg.ctl) ∧
    (∀ k, k ≠ 0 → k ≠ 4 →
      Nat.testBit ((bcm2835_pwm_enable i s).s Reg.ctl) k =
        Nat.testBit (s Reg.ctl) k ∧
      Nat.testBit ((bcm2835_pwm_disable i s).1 Reg.ctl) k =
        Nat.testBit (s Reg.ctl) k ∧
      Nat.testBit ((bcm2835_set_polarity i pol s).s Reg.ctl) k =
        Nat.testBit (s Reg.ctl) k) ∧
    (∀ r, r ≠ Reg.duty → r ≠ Reg.period →
      (bcm2835_pwm_config i d p s).s r = s r) ∧
    (∀ r, r ≠ Reg.ctl →
      (bcm2835_pwm_enable i s).s r = s r ∧
      (bcm2835_pwm_disable i s).1 r = s r ∧
      (bcm2835_set_polarity i pol s).s r = s r) := by
  refine ⟨rfl, rfl, rfl, rfl, ?_, ?_, ?_, ?_, ?_, ?_, ?_⟩
  · intro e he
    simp only [bcm2835_pwm_config, List.mem_cons, List.not_mem_nil,
      or_false] at he
    rcases he with h1 | h1 <;> subst h1 <;> simp [RegEvent.target]
  · intro e he
    simp only [bcm2835_pwm_enable, List.mem_cons, List.not_mem_nil,
      or_false] at he
    rcases he with h1 | h1 | h1 <;> subst h1 <;> simp [RegEvent.target]
  · intro e he
    simp only [bcm2835_pwm_disable, List.mem_cons, List.not_mem_nil,
      or_false] at he
    rcases he with h1 | h1 <;> subst h1 <;> simp [RegEvent.target]
  · intro e he
    by_cases h0 : pol = PWM_POLARITY_NORMAL
    · simp only [bcm2835_set_polarity, h0, PWM_POLARITY_NORMAL,
        PWM_POLARITY_INVERSED, reduceIte] at he
      fin_cases he <;> rfl
    · by_cases h1 : pol = PWM_POLARITY_INVERSED
      · simp only [bcm2835_set_polarity, h0, h1, PWM_POLARITY_NORMAL,
          PWM_POLARITY_INVERSED, reduceIte] at he
        fin_cases he <;> rfl
      · simp [bcm2835_set_polarity, h0, h1] at he
  · intro k hk0 hk4
    refine ⟨?_, ?_, ?_⟩
    · rw [enable_ctl_val i s h, PWM_ENABLE_eq]
      exact testBit_lor_two_pow_other _ k 0 hk0
    · rw [disable_ctl_val i s, PWM_ENABLE_eq]
      exact testBit_land_u32not_other _ k 0 h hk0
    · by_cases h0 : pol = PWM_POLARITY_NORMAL
      · rw [h0, set_polarity_normal_val i s, PWM_POLARITY_eq]
        exact testBit_land_u32not_other _ k 4 h hk4
      · by_cases h1 : pol = PWM_POLARITY_INVERSED
        · rw [h1, set_polarity_inversed_val i s h, PWM_POLARITY_eq]
          exact testBit_lor_two_pow_other _ k 4 hk4
        · have hs : (bcm2835_set_polarity i pol s).s = s := by
            simp [bcm2835_set_polarity, h0, h1]
          rw [hs]
  · intro r hr1 hr2
    simp [bcm2835_pwm_config, iowrite32, hr1, hr2]
  · intro r hr
    refine ⟨?_, ?_, ?_⟩
    · simp [bcm2835_pwm_enable, iowrite32, hr]
    · simp [bcm2835_pwm_disable, iowrite32, hr]
    · by_cases h0 : pol = PWM_POLARITY_NORMAL
      · simp [bcm2835_set_polarity, h0, iowrite32, hr]
      · by_cases h1 : pol = PWM_POLARITY_INVERSED
        · simp [bcm2835_set_polarity, h0, h1, PWM_POLARITY_NORMAL,
            PWM_POLARITY_INVERSED, iowrite32, hr]
        · simp [bcm2835_set_polarity, h0, h1]

/-- Witness for C9_channel_ignored: channels 0 and 1 give identical config
results on the all-sevens register file, and enable leaves bit 2 of the
control register untouched. -/
theorem C9_witness :
    regsAll 7 Reg.ctl < 2 ^ 32 ∧
    bcm2835_pwm_config 0 100000 300000 (regsAll 7) =
      bcm2835_pwm_config 1 100000 300000 (regsAll 7) ∧
    Nat.testBit ((bcm2835_pwm_enable 0 (regsAll 7)).s Reg.ctl) 2 =
      Nat.testBit (regsAll 7 Reg.ctl) 2 :=
  ⟨by decide,
   (C9_channel_ignored 0 1 100000 300000 1 (regsAll 7) (by decide)).1,
   ((C9_channel_ignored 0 1 100000 300000 1 (regsAll 7)
      (by decide)).2.2.2.2.2.2.2.2.1 2 (by decide) (by decide)).1⟩

/-- Claim C10: for every polarity value that is neither
PWM_POLARITY_NORMAL nor PWM_POLARITY_INVERSED, bcm2835_set_polarity falls
through both branches: it performs no register access (empty trace, register
file unchanged) and still returns 0. -/
theorem C10_unknown_polarity (i pol : Nat) (s : RegState)
    (h0 : pol ≠ PWM_POLARITY_NORMAL) (h1 : pol ≠ PWM_POLARITY_INVERSED) :
    (bcm2835_set_polarity i pol s).s = s ∧
    (bcm2835_set_polarity i pol s).trace = [] ∧
    (bcm2835_set_polarity i pol s).ret = 0 := by
  simp [bcm2835_set_polarity, h0, h1]

/-- Witness for C10_unknown_polarity with the out-of-enum value 2. -/
theorem C10_witness :
    ((2 : Nat) ≠ PWM_POLARITY_NORMAL ∧ (2 : Nat) ≠ PWM_POLARITY_INVERSED) ∧
    ((bcm2835_set_polarity 0 2 (regsAll 7)).s = regsAll 7 ∧
     (bcm2835_set_polarity 0 2 (regsAll 7)).trace = [] ∧
     (bcm2835_set_polarity 0 2 (regsAll 7)).ret = 0) :=
  ⟨⟨by decide, by decide⟩,
   C10_unknown_polarity 0 2 (regsAll 7) (by decide) (by decide)⟩
